import Mathlib

/-!
Verification model of the Omnius message pipeline (src/src/cogs/message_handler.py
and src/src/cogs/vector_store.py), shallowly embedded in Lean 4.

Timestamps are modelled as naturals (the source stores ISO-8601 strings whose
lexicographic order agrees with chronological order for a fixed format).
The SQLite messages table is modelled as a list of rows keyed by id; the
per-channel batch queue (a Python dict of lists) is an association list.
-/

namespace Omnius

/-- Entry of the edit_history JSON list kept by _record_edit. -/
structure EditRecord where
  timestamp : Nat
  old_content : String
  new_content : String
deriving DecidableEq

/-- Row of the messages table created by _init_db and written by _save_batch,
_update_message and _record_edit. timestamp is the created_at time of the
source message; last_updated is set on every mutation. -/
structure MessageRow where
  id : String
  channel_id : String
  author_id : String
  author_name : String
  content : String
  timestamp : Nat
  attachments : List String
  embeds : List String
  is_deleted : Bool
  is_edited : Bool
  edit_history : List EditRecord
  last_updated : Nat
deriving DecidableEq

/-- Incoming chat message as delivered to the listeners (discord.Message in the
source): the fields _format_message reads, plus the author bot flag each
listener checks first. -/
structure RawMessage where
  id : String
  channel_id : String
  author_id : String
  author_name : String
  author_bot : Bool
  content : String
  created_at : Nat
  attachments : List String
  embeds : List String
deriving DecidableEq

/-- Model of _format_message: builds the row to store, with is_deleted and
is_edited cleared, an empty edit_history, timestamp taken from the message
creation time and last_updated from the wall clock at formatting time. -/
def formatMessage (m : RawMessage) (now : Nat) : MessageRow :=
  { id := m.id
    channel_id := m.channel_id
    author_id := m.author_id
    author_name := m.author_name
    content := m.content
    timestamp := m.created_at
    attachments := m.attachments
    embeds := m.embeds
    is_deleted := false
    is_edited := false
    edit_history := []
    last_updated := now }

/-- Lookup in the per-channel queue dict (self.message_queue). -/
def qLookup (q : List (String × List MessageRow)) (ch : String) :
    Option (List MessageRow) :=
  match q with
  | [] => none
  | (c, v) :: rest => if c = ch then some v else qLookup rest ch

/-- Assignment self.message_queue[ch] = v on the queue dict. -/
def qSet (q : List (String × List MessageRow)) (ch : String)
    (v : List MessageRow) : List (String × List MessageRow) :=
  match q with
  | [] => [(ch, v)]
  | (c, w) :: rest => if c = ch then (ch, v) :: rest else (c, w) :: qSet rest ch v

/-- State owned by the MessageHandler cog: the in-memory batch queue and the
SQLite messages table. -/
structure HState where
  queue : List (String × List MessageRow)
  table : List MessageRow
deriving DecidableEq

/-- Value of self.batch_size in MessageHandler.__init__. -/
def batchSize : Nat := 50

/-- Model of one SQLite INSERT OR REPLACE keyed by the primary key id: any
existing row with the same id is removed and the new row inserted. -/
def insertOrReplace (t : List MessageRow) (m : MessageRow) : List MessageRow :=
  t.filter (fun r => r.id != m.id) ++ [m]

/-- Model of cursor.executemany over INSERT OR REPLACE: the rows are applied
in list order within one transaction. -/
def upsertMany (t : List MessageRow) (ms : List MessageRow) : List MessageRow :=
  ms.foldl insertOrReplace t

/-- Model of the body of _save_batch(channel_id). Under the batch lock the
pending list for the channel is read and replaced by []; then, outside the
lock, the bulk write runs inside try/except. storeOk says whether the
database write succeeds; when it fails the exception is logged and swallowed,
and the popped messages are NOT put back into the queue. -/
def saveBatch (storeOk : Bool) (s : HState) (ch : String) : HState :=
  match qLookup s.queue ch with
  | none => s
  | some [] => s
  | some msgs =>
      if storeOk then
        { queue := qSet s.queue ch [], table := upsertMany s.table msgs }
      else
        { s with queue := qSet s.queue ch [] }

/-- Model of a call to _save_batch made while self.batch_lock is already held
by the calling thread. threading.Lock is not reentrant, so the with-statement
at the top of _save_batch blocks forever in that case: the call never
returns, modelled as none. -/
def saveBatchWithLock (lockHeld : Bool) (storeOk : Bool) (s : HState)
    (ch : String) : Option HState :=
  if lockHeld then none else some (saveBatch storeOk s ch)

/-- Model of _queue_message: while holding self.batch_lock the message is
appended to the pending list of its channel; if the pending count reaches
self.batch_size, _save_batch is called from inside the with-block, that is
with the lock still held. -/
def queueMessage (storeOk : Bool) (s : HState) (m : MessageRow) :
    Option HState :=
  if batchSize ≤ ((qLookup s.queue m.channel_id).getD [] ++ [m]).length then
    saveBatchWithLock true storeOk
      { s with queue := qSet s.queue m.channel_id ((qLookup s.queue m.channel_id).getD [] ++ [m]) }
      m.channel_id
  else
    some { s with queue := qSet s.queue m.channel_id ((qLookup s.queue m.channel_id).getD [] ++ [m]) }

/-- Model of the on_message listener: bot authors are ignored before any state
is touched; otherwise the message is formatted and queued. -/
def onMessage (storeOk : Bool) (s : HState) (m : RawMessage) (now : Nat) :
    Option HState :=
  if m.author_bot then some s else queueMessage storeOk s (formatMessage m now)

/-- Model of SELECT ... FROM messages WHERE id = ? followed by fetchone: the
first row with the given id, if any. -/
def findRow (t : List MessageRow) (mid : String) : Option MessageRow :=
  t.find? (fun r => r.id == mid)

/-- Model of _record_edit: if no row with the id exists the function logs a
warning and changes nothing. Otherwise the edit_history of the found row is
extended by one entry and the UPDATE sets content, is_edited = 1, the new
history and last_updated on the row with that id. The source performs no
check of is_deleted. -/
def recordEdit (t : List MessageRow) (mid oldC newC : String) (now : Nat) :
    List MessageRow :=
  match findRow t mid with
  | none => t
  | some r =>
      t.map (fun x =>
        if x.id == mid then
          { x with
            content := newC
            is_edited := true
            edit_history := r.edit_history ++ [⟨now, oldC, newC⟩]
            last_updated := now }
        else x)

/-- Fields the update_data dict of _update_message may carry (the source reads
the current row, overwrites the keys present in update_data, stamps
last_updated with the current time, and writes the row back). -/
structure UpdateData where
  content : Option String
  is_deleted : Option Bool
  is_edited : Option Bool
deriving DecidableEq

/-- Overwrite of one row by _update_message. -/
def applyUpdate (r : MessageRow) (u : UpdateData) (now : Nat) : MessageRow :=
  { r with
    content := u.content.getD r.content
    is_deleted := u.is_deleted.getD r.is_deleted
    is_edited := u.is_edited.getD r.is_edited
    last_updated := now }

/-- Model of _update_message: a warning and no change when the id is absent;
otherwise the row with that id is overwritten per update_data with
last_updated set to the current time. -/
def updateMessage (t : List MessageRow) (mid : String) (u : UpdateData)
    (now : Nat) : List MessageRow :=
  match findRow t mid with
  | none => t
  | some _ => t.map (fun x => if x.id == mid then applyUpdate x u now else x)

/-- Edit event as delivered to on_message_edit (the before/after pair). -/
structure EditEvent where
  author_bot : Bool
  id : String
  old_content : String
  new_content : String
  time : Nat
deriving DecidableEq

/-- Deletion event as delivered to on_message_delete. -/
structure DeleteEvent where
  author_bot : Bool
  id : String
  time : Nat
deriving DecidableEq

/-- Effect of the on_message_edit listener on the messages table: bot authors
are ignored, unchanged content is ignored, otherwise _record_edit runs. -/
def onMessageEditT (t : List MessageRow) (e : EditEvent) : List MessageRow :=
  if e.author_bot then t
  else if e.old_content == e.new_content then t
  else recordEdit t e.id e.old_content e.new_content e.time

/-- Model of the on_message_edit listener; it touches only the messages
table, never the batch queue. -/
def onMessageEdit (s : HState) (e : EditEvent) : HState :=
  { s with table := onMessageEditT s.table e }

/-- Effect of the on_message_delete listener on the messages table: bot
authors are ignored, otherwise _update_message marks the row deleted. -/
def onMessageDeleteT (t : List MessageRow) (d : DeleteEvent) : List MessageRow :=
  if d.author_bot then t
  else updateMessage t d.id { content := none, is_deleted := some true, is_edited := none } d.time

/-- Model of the on_message_delete listener; it touches only the messages
table, never the batch queue. -/
def onMessageDelete (s : HState) (d : DeleteEvent) : HState :=
  { s with table := onMessageDeleteT s.table d }

/-- Descending created_at order used by the ORDER BY timestamp DESC clause of
_get_messages. -/
def tsDesc (a b : MessageRow) : Prop := b.timestamp ≤ a.timestamp

instance : DecidableRel tsDesc := fun a b => Nat.decLe b.timestamp a.timestamp

instance : IsTotal MessageRow tsDesc := ⟨fun a b => Nat.le_total b.timestamp a.timestamp⟩

instance : IsTrans MessageRow tsDesc := ⟨fun _ _ _ h1 h2 => Nat.le_trans h2 h1⟩

/-- Model of _get_messages: rows of the channel (with is_deleted = 0 unless
include_deleted), ordered by timestamp descending, after OFFSET and LIMIT.
The model sorts with insertion sort; the source delegates to SQLite, which
also returns some order sorted by the same key. -/
def getMessages (t : List MessageRow) (ch : String) (limit offset : Nat)
    (includeDeleted : Bool) : List MessageRow :=
  (List.drop offset (List.insertionSort tsDesc
    (t.filter (fun r => r.channel_id == ch && (includeDeleted || !r.is_deleted))))).take limit

/-- Invariant of the messages table claimed by the spec: last_updated is never
before created_at. -/
def storeInv (t : List MessageRow) : Prop :=
  ∀ r ∈ t, r.timestamp ≤ r.last_updated

/-- Writes the source performs on the messages table: a batch flush, an edit
record, and a deletion mark. -/
inductive StoreOp where
  | flush (msgs : List MessageRow)
  | edit (mid oldC newC : String) (now : Nat)
  | markDeleted (mid : String) (now : Nat)

/-- Effect of one write on the messages table. -/
def applyStoreOp (t : List MessageRow) : StoreOp → List MessageRow
  | .flush ms => upsertMany t ms
  | .edit mid oldC newC now => recordEdit t mid oldC newC now
  | .markDeleted mid now =>
      updateMessage t mid { content := none, is_deleted := some true, is_edited := none } now

/-- Clock assumption for one write: rows handed to a flush already satisfy the
stamp order (as _format_message guarantees), and the wall-clock time an edit
or deletion stamps is not before the creation time of any stored row. -/
def opClockOk (t : List MessageRow) : StoreOp → Prop
  | .flush ms => ∀ m ∈ ms, m.timestamp ≤ m.last_updated
  | .edit _ _ _ now => ∀ r ∈ t, r.timestamp ≤ now
  | .markDeleted _ now => ∀ r ∈ t, r.timestamp ≤ now

/-- Entry of the chromadb collection: id, stored document text, and the
metadata snapshot written at insertion time. The embedding vector itself is
opaque to the claims settled here. -/
structure ChromaEntry where
  eid : String
  document : String
  meta_channel : String
  meta_author : String
  meta_timestamp : Nat
deriving DecidableEq

/-- Value of self.batch_size in VectorStore.__init__. -/
def promoterBatchSize : Nat := 100

/-- Parameter value handed to Python sqlite3 cursor.execute: either a scalar
that sqlite can bind, or a tuple (which sqlite cannot bind as one value). -/
inductive BindValue where
  | scalar (v : String)
  | tupleVal (vs : List String)
deriving DecidableEq

/-- Whether sqlite3 can bind one parameter value. -/
def bindableParam : BindValue → Bool
  | .scalar _ => true
  | .tupleVal _ => false

/-- Model of Python sqlite3 cursor.execute parameter binding for a statement
with the given number of placeholders: binding succeeds when the parameter
sequence has exactly that many entries and each entry is a bindable scalar;
otherwise execute raises ProgrammingError. In particular a list of tuples, as
executemany would expect, makes execute raise. -/
def executeBindOk (placeholders : Nat) (params : List BindValue) : Bool :=
  params.length == placeholders && params.all bindableParam

/-- Model of Python str.strip() on the character list of a string: leading and
trailing whitespace removed. -/
def stripChars (cs : List Char) : List Char :=
  ((cs.dropWhile Char.isWhitespace).reverse.dropWhile Char.isWhitespace).reverse

/-- Model of Python str.strip() used by the empty-content check of
_process_old_messages. -/
def pyStrip (s : String) : String := { data := stripChars s.data }

/-- State read and written by the promotion cycle: the messages table, the
processed_messages table (the promoted set), and the chromadb collection. -/
structure PromoteState where
  table : List MessageRow
  processed : List String
  collection : List ChromaEntry
deriving DecidableEq

/-- Metadata snapshot _process_old_messages builds for one message. -/
def promoteEntry (m : MessageRow) : ChromaEntry :=
  { eid := m.id
    document := m.content
    meta_channel := m.channel_id
    meta_author := m.author_name
    meta_timestamp := m.timestamp }

/-- Model of one cycle of _process_old_messages, with the Embedder modelled
from the spec: embed(text) returns a vector or fails (the source calls
self._get_embedding, which is not defined anywhere in the repository), and
the Durable Store connection modelled as the table state (the source reads
self.db_path, which VectorStore never initializes). The cycle selects up to
batch_size non-deleted rows older than the cutoff whose id is not yet in
processed_messages, skips whitespace-only content, embeds the rest, adds the
successfully embedded entries to the collection, and then tries to mark them
processed with cursor.execute applied to a LIST OF TUPLES: sqlite3 raises
ProgrammingError there, the surrounding except swallows it, and the INSERT
and the commit never happen, so processed_messages is left unchanged. -/
def processCycle (embed : String → Option (List Int)) (cutoff now : Nat)
    (s : PromoteState) : PromoteState :=
  let messages := (s.table.filter (fun r =>
      decide (r.timestamp < cutoff) && !r.is_deleted && !(s.processed.contains r.id))).take
      promoterBatchSize
  if messages.isEmpty then s
  else
    let nonEmpty := messages.filter (fun m => pyStrip m.content != "")
    let valid := nonEmpty.filter (fun m => (embed m.content).isSome)
    if valid.isEmpty then s
    else
      let s1 : PromoteState := { s with collection := s.collection ++ valid.map promoteEntry }
      let params := valid.map (fun m => BindValue.tupleVal [m.id, toString now])
      if executeBindOk 2 params then
        { s1 with processed := s1.processed ++ valid.map (fun m => m.id) }
      else
        s1

/-- Result rows _search_similar_messages builds from a chromadb query. -/
structure SearchResult where
  rid : String
  document : String
  meta_channel : String
  distance : Nat
deriving DecidableEq

/-- Ascending distance order of chromadb query results. -/
def distAsc (a b : SearchResult) : Prop := a.distance ≤ b.distance

instance : DecidableRel distAsc := fun a b => Nat.decLe a.distance b.distance

instance : IsTotal SearchResult distAsc := ⟨fun a b => Nat.le_total a.distance b.distance⟩

instance : IsTrans SearchResult distAsc := ⟨fun _ _ _ h1 h2 => Nat.le_trans h1 h2⟩

/-- Modelled from the spec: collection.query of the Semantic Index (chromadb,
an external capability together with the Embedder that produces the query
vector and the cosine distance) returns up to k nearest entries restricted to
the channel filter, each with id, document, metadata and distance. The
distance function between the query text and a stored document is a
parameter. -/
def chromaQuery (dist : String → String → Nat) (index : List ChromaEntry)
    (query ch : String) (k : Nat) : List SearchResult :=
  (List.insertionSort distAsc
    ((index.filter (fun e => e.meta_channel == ch)).map (fun e =>
      { rid := e.eid
        document := e.document
        meta_channel := e.meta_channel
        distance := dist query e.document }))).take k

/-- Names in scope inside the body of _search_similar_messages that the
where-filter needs: the filter reads ctx.channel.id, but the only local
names of that function are self, query and limit, so ctx is unbound. -/
structure SearchScope where
  ctx_channel : Option String
deriving DecidableEq

/-- Scope the source actually gives the function body: ctx is not defined. -/
def searchScope : SearchScope := { ctx_channel := none }

/-- Body of _search_similar_messages inside the try block: evaluating the
where-filter looks up the name ctx; when it is unbound Python raises
NameError before the collection is queried. -/
def searchSimilarBody (scope : SearchScope) (dist : String → String → Nat)
    (index : List ChromaEntry) (query : String) (limit : Nat) :
    Except String (List SearchResult) :=
  match scope.ctx_channel with
  | none => .error "NameError: name ctx is not defined"
  | some ch => .ok (chromaQuery dist index query ch limit)

/-- Model of _search_similar_messages: the try/except wrapper logs any
exception raised by the body and returns the empty list to the caller. -/
def searchSimilarMessages (dist : String → String → Nat)
    (index : List ChromaEntry) (query : String) (limit : Nat) :
    List SearchResult :=
  match searchSimilarBody searchScope dist index query limit with
  | .ok r => r
  | .error _ => []

/-! Concrete fixtures used by counterexamples and witnesses. -/

/-- Row number i of the concrete scenario: id and created_at i + 1, all in
channel chan-1. -/
def mkRow (i : Nat) : MessageRow :=
  { id := toString (i + 1)
    channel_id := "chan-1"
    author_id := "u1"
    author_name := "user"
    content := "hello"
    timestamp := i + 1
    attachments := []
    embeds := []
    is_deleted := false
    is_edited := false
    edit_history := []
    last_updated := i + 1 }

/-- Messages table after the 60 creates of the get_recent scenario are
flushed into an empty store. -/
def table60 : List MessageRow := upsertMany [] ((List.range 60).map mkRow)

/-- Handler state with one pending record for chan-1 and an empty table. -/
def c1state : HState := { queue := [("chan-1", [mkRow 0])], table := [] }

/-- Handler state with 49 pending records for chan-1, one below batch_size. -/
def c2state : HState := { queue := [("chan-1", (List.range 49).map mkRow)], table := [] }

/-- Handler state with 48 pending records for chan-1. -/
def c2state48 : HState := { queue := [("chan-1", (List.range 48).map mkRow)], table := [] }

/-- Promoter state with one old unprocessed message and empty stores. -/
def c3state : PromoteState := { table := [mkRow 0], processed := [], collection := [] }

/-- Embedder that succeeds on every text. -/
def embedConst : String → Option (List Int) := fun _ => some [0]

/-- Distance function that ranks every document equally. -/
def distZero : String → String → Nat := fun _ _ => 0

/-- Semantic index with one entry for chan-1. -/
def c5index : List ChromaEntry :=
  [{ eid := "1", document := "hello", meta_channel := "chan-1",
     meta_author := "user", meta_timestamp := 1 }]

/-- Row of the C4 scenario after it has been marked deleted. -/
def c4row : MessageRow := { mkRow 0 with is_deleted := true, last_updated := 5 }

/-- Messages table of the C4 scenario: one row, already marked deleted via
on_message_delete. -/
def c4deleted : List MessageRow :=
  onMessageDeleteT [mkRow 0] { author_bot := false, id := "1", time := 5 }

/-- First ingested version of the C6 record. -/
def c6m1 : MessageRow := mkRow 0

/-- Second ingested version of the C6 record: same id, different content. -/
def c6m2 : MessageRow := { mkRow 0 with content := "second", last_updated := 2 }

/-- Handler state with empty queue and empty table. -/
def emptyState : HState := { queue := [], table := [] }

/-- Incoming message authored by a bot account. -/
def botRaw : RawMessage :=
  { id := "9", channel_id := "chan-1", author_id := "b", author_name := "bot",
    author_bot := true, content := "beep", created_at := 1, attachments := [],
    embeds := [] }

/-- Edit event authored by a bot account. -/
def botEdit : EditEvent :=
  { author_bot := true, id := "9", old_content := "beep", new_content := "boop",
    time := 2 }

/-- Deletion event authored by a bot account. -/
def botDel : DeleteEvent := { author_bot := true, id := "9", time := 3 }

/-! Shared lemmas. -/

/-- Writing a channel entry and reading it back yields the written list. -/
theorem qLookup_qSet (q : List (String × List MessageRow)) (ch : String)
    (v : List MessageRow) : qLookup (qSet q ch v) ch = some v := by
  induction q with
  | nil => simp [qSet, qLookup]
  | cons p rest ih =>
      obtain ⟨c, w⟩ := p
      by_cases h : c = ch
      · simp [qSet, h, qLookup]
      · simp [qSet, h, qLookup, ih]

/-- Behaviour of _save_batch on a nonempty pending list when the database
write succeeds. -/
theorem saveBatch_ok (s : HState) (ch : String) (msgs : List MessageRow)
    (hq : qLookup s.queue ch = some msgs) (hne : msgs ≠ []) :
    saveBatch true s ch =
      { queue := qSet s.queue ch [], table := upsertMany s.table msgs } := by
  cases msgs with
  | nil => exact absurd rfl hne
  | cons a l => unfold saveBatch; rw [hq]; rfl

/-- Behaviour of _save_batch on a nonempty pending list when the database
write fails: the pending list is already cleared and the rows are dropped. -/
theorem saveBatch_failed (s : HState) (ch : String) (msgs : List MessageRow)
    (hq : qLookup s.queue ch = some msgs) (hne : msgs ≠ []) :
    saveBatch false s ch = { s with queue := qSet s.queue ch [] } := by
  cases msgs with
  | nil => exact absurd rfl hne
  | cons a l => unfold saveBatch; rw [hq]; rfl

/-- Behaviour of _queue_message while the buffer stays below batch_size. -/
theorem queueMessage_below (storeOk : Bool) (s : HState) (m : MessageRow)
    (h : ((qLookup s.queue m.channel_id).getD [] ++ [m]).length < batchSize) :
    queueMessage storeOk s m =
      some { s with
             queue := qSet s.queue m.channel_id
               ((qLookup s.queue m.channel_id).getD [] ++ [m]) } := by
  unfold queueMessage
  rw [if_neg (Nat.not_le.mpr h)]

/-- Replacing a row by id leaves exactly that row under the id filter. -/
theorem filter_insertOrReplace (t : List MessageRow) (m : MessageRow) :
    (insertOrReplace t m).filter (fun r => r.id == m.id) = [m] := by
  unfold insertOrReplace
  rw [List.filter_append]
  have h1 : (t.filter (fun r => r.id != m.id)).filter (fun r => r.id == m.id) = [] := by
    apply List.filter_eq_nil_iff.mpr
    intro r hr
    have h2 := (List.mem_filter.mp hr).2
    simp only [bne_iff_ne, ne_eq] at h2
    simp [h2]
  rw [h1]
  simp

/-! ### C1 — flush failure handling -/

/-- C1 counterexample: for the concrete one-record buffer, after a flush whose
store write fails the record is neither left in (nor restored to) the buffer
nor present in the store: it is silently discarded, contradicting the claim
that buffer contents survive a persistence failure. -/
theorem c1_counterexample :
    mkRow 0 ∉ ((qLookup (saveBatch false c1state "chan-1").queue "chan-1").getD []) ∧
    mkRow 0 ∉ (saveBatch false c1state "chan-1").table := by decide

/-- C1 (amended): when the bulk write of a flush fails, the batch has already
been removed from the BatchBuffer and is not restored: the Durable Store is
unchanged and the buffer for the partition is left empty, so the records of
the batch are dropped (the failure is only logged). -/
theorem c1_failed_flush_drops_batch (s : HState) (ch : String)
    (msgs : List MessageRow) (hq : qLookup s.queue ch = some msgs)
    (hne : msgs ≠ []) :
    (saveBatch false s ch).table = s.table ∧
    qLookup (saveBatch false s ch).queue ch = some [] := by
  rw [saveBatch_failed s ch msgs hq hne]
  exact ⟨rfl, qLookup_qSet s.queue ch []⟩

/-- C1 witness: the amended statement at the concrete one-record buffer. -/
theorem c1_failed_flush_drops_batch_witness :
    (saveBatch false c1state "chan-1").table = c1state.table ∧
    qLookup (saveBatch false c1state "chan-1").queue "chan-1" = some [] :=
  c1_failed_flush_drops_batch c1state "chan-1" [mkRow 0] (by decide) (by decide)

/-! ### C2 — size-triggered flush -/

/-- C2: enqueueing the record that brings a partition buffer to batch_size
does not produce a completed flush: _queue_message calls _save_batch while
still holding the non-reentrant batch lock, and _save_batch immediately
re-acquires that lock, so the call deadlocks (modelled as none). One record
below the threshold the enqueue returns normally. -/
theorem c2_batch_size_trigger_deadlocks :
    queueMessage true c2state (mkRow 49) = none ∧
    queueMessage true c2state48 (mkRow 48) =
      some { queue := [("chan-1", (List.range 49).map mkRow)], table := [] } := by decide

/-! ### C3 — promotion marking -/

/-- C3: for a concrete cycle with one eligible message whose embedding
succeeds, the entry is inserted into the Semantic Index but its id is NOT
recorded in processed_messages: the INSERT uses cursor.execute with a list of
parameter tuples, which raises ProgrammingError, and the exception handler of
the cycle swallows it before the commit. -/
theorem c3_promoted_id_never_marked :
    (processCycle embedConst 100 200 c3state).collection.map ChromaEntry.eid = ["1"] ∧
    (processCycle embedConst 100 200 c3state).processed = [] := by decide

/-! ### C5 — similarity search -/

/-- C5: on a concrete nonempty index with a matching entry, the search the
collection would answer returns that entry, but _search_similar_messages
returns the empty list: its where-filter reads the unbound name ctx, the
NameError is swallowed by the except handler, and the caller always gets []. -/
theorem c5_search_always_empty :
    searchSimilarMessages distZero c5index "hello" 5 = [] ∧
    chromaQuery distZero c5index "hello" "chan-1" 5 =
      [{ rid := "1", document := "hello", meta_channel := "chan-1", distance := 0 }] := by
  decide

/-! ### C4 — record_edit on missing and deleted targets -/

/-- Finding by id commutes with an id-preserving rewrite of the rows. -/
theorem findRow_map_update (t : List MessageRow) (mid : String)
    (g : MessageRow → MessageRow) (hg : ∀ x, (g x).id = x.id)
    (r : MessageRow) (h : findRow t mid = some r) :
    findRow (t.map (fun x => if x.id == mid then g x else x)) mid = some (g r) := by
  induction t with
  | nil => simp [findRow] at h
  | cons a rest ih =>
      unfold findRow at h ⊢
      rw [List.map_cons]
      cases ha : (a.id == mid) with
      | true =>
          simp only [List.find?, ha] at h
          obtain rfl : a = r := Option.some.inj h
          simp [List.find?, hg, ha]
      | false =>
          simp only [List.find?, ha] at h
          have hrest := ih h
          unfold findRow at hrest
          simp only [Bool.false_eq_true, if_false, List.find?, ha]
          exact hrest

/-- Outcome of _record_edit when a row with the id exists: that row gets the
new content, the edited flag, one more history entry and a fresh
last_updated, whatever its is_deleted flag was. -/
theorem recordEdit_found (t : List MessageRow) (mid oldC newC : String)
    (now : Nat) (r : MessageRow) (h : findRow t mid = some r) :
    findRow (recordEdit t mid oldC newC now) mid =
      some { r with
             content := newC
             is_edited := true
             edit_history := r.edit_history ++ [⟨now, oldC, newC⟩]
             last_updated := now } := by
  unfold recordEdit
  rw [h]
  exact findRow_map_update t mid
    (fun x => { x with
                content := newC
                is_edited := true
                edit_history := r.edit_history ++ [⟨now, oldC, newC⟩]
                last_updated := now })
    (fun _ => rfl) r h

/-- C4 counterexample: the stored row with id 1 is already marked deleted,
yet a subsequent record_edit still changes its stored content from hello to
changed — the source checks only existence, not is_deleted, contradicting the
claim that an edit after delete is a no-op. -/
theorem c4_counterexample :
    (findRow c4deleted "1").map MessageRow.is_deleted = some true ∧
    (findRow c4deleted "1").map MessageRow.content = some "hello" ∧
    (findRow (recordEdit c4deleted "1" "hello" "changed" 9) "1").map MessageRow.content =
      some "changed" := by decide

/-- C4 (amended): record_edit is a no-op with a warning only when no row with
the id exists; whenever a row exists — even one already marked deleted — it
appends one entry to edit_history, sets is_edited, and updates content and
last_updated. In particular an edit after delete(id) still changes the stored
content of id. -/
theorem c4_record_edit_ignores_deleted (t : List MessageRow)
    (mid oldC newC : String) (now : Nat) :
    (findRow t mid = none → recordEdit t mid oldC newC now = t) ∧
    (∀ r, findRow t mid = some r →
      findRow (recordEdit t mid oldC newC now) mid =
        some { r with
               content := newC
               is_edited := true
               edit_history := r.edit_history ++ [⟨now, oldC, newC⟩]
               last_updated := now }) := by
  constructor
  · intro h
    unfold recordEdit
    rw [h]
  · intro r h
    exact recordEdit_found t mid oldC newC now r h

/-- C4 witness: the amended statement at the one-row deleted table and at the
empty table. -/
theorem c4_record_edit_ignores_deleted_witness :
    (recordEdit [] "1" "hello" "changed" 9 = []) ∧
    findRow (recordEdit c4deleted "1" "hello" "changed" 9) "1" =
      some { c4row with
             content := "changed"
             is_edited := true
             edit_history := c4row.edit_history ++ [⟨9, "hello", "changed"⟩]
             last_updated := 9 } := by
  constructor
  · exact (c4_record_edit_ignores_deleted [] "1" "hello" "changed" 9).1 (by decide)
  · exact (c4_record_edit_ignores_deleted c4deleted "1" "hello" "changed" 9).2
      c4row (by decide)

/-! ### C6 — idempotent ingest -/

/-- C6: enqueueing two records with the same id (for the same partition,
below the size trigger) and then flushing leaves exactly one row for that id
in the store, carrying the content of the later enqueue. -/
theorem c6_idempotent_ingest (s : HState) (m1 m2 : MessageRow)
    (hid : m1.id = m2.id) (hch : m1.channel_id = m2.channel_id)
    (hlen : ((qLookup s.queue m1.channel_id).getD []).length + 2 < batchSize) :
    ∃ s1 s2 : HState,
      queueMessage true s m1 = some s1 ∧
      queueMessage true s1 m2 = some s2 ∧
      (saveBatch true s2 m2.channel_id).table.filter (fun r => r.id == m2.id) = [m2] := by
  obtain ⟨P, hP⟩ : ∃ P, (qLookup s.queue m1.channel_id).getD [] = P := ⟨_, rfl⟩
  rw [hP] at hlen
  have hq1 : queueMessage true s m1 =
      some { s with queue := qSet s.queue m1.channel_id (P ++ [m1]) } := by
    have h := queueMessage_below true s m1 (by rw [hP]; simp; omega)
    rw [hP] at h
    exact h
  have hl1 : qLookup (qSet s.queue m1.channel_id (P ++ [m1])) m2.channel_id
      = some (P ++ [m1]) := by
    rw [← hch]
    exact qLookup_qSet _ _ _
  have hq2 : queueMessage true { s with queue := qSet s.queue m1.channel_id (P ++ [m1]) } m2
      = some { queue := qSet (qSet s.queue m1.channel_id (P ++ [m1])) m2.channel_id
                 ((P ++ [m1]) ++ [m2]),
               table := s.table } := by
    have h := queueMessage_below true
      { s with queue := qSet s.queue m1.channel_id (P ++ [m1]) } m2
      (by dsimp only; rw [hl1]; simp; omega)
    dsimp only at h
    rw [hl1] at h
    exact h
  have hl2 : qLookup (qSet (qSet s.queue m1.channel_id (P ++ [m1])) m2.channel_id
      ((P ++ [m1]) ++ [m2])) m2.channel_id = some ((P ++ [m1]) ++ [m2]) :=
    qLookup_qSet _ _ _
  have hsv := saveBatch_ok
    { queue := qSet (qSet s.queue m1.channel_id (P ++ [m1])) m2.channel_id
        ((P ++ [m1]) ++ [m2]),
      table := s.table }
    m2.channel_id ((P ++ [m1]) ++ [m2]) (by dsimp only; exact hl2) (by simp)
  refine ⟨_, _, hq1, hq2, ?_⟩
  rw [hsv]
  show (upsertMany s.table ((P ++ [m1]) ++ [m2])).filter (fun r => r.id == m2.id) = [m2]
  have hsplit : upsertMany s.table ((P ++ [m1]) ++ [m2])
      = insertOrReplace (upsertMany s.table (P ++ [m1])) m2 := by
    unfold upsertMany
    rw [List.foldl_append]
    rfl
  rw [hsplit]
  exact filter_insertOrReplace _ _

/-- C6 witness: the statement at an empty handler state and two concrete
records sharing id 1 with different contents. -/
theorem c6_idempotent_ingest_witness :
    ∃ s1 s2 : HState,
      queueMessage true emptyState c6m1 = some s1 ∧
      queueMessage true s1 c6m2 = some s2 ∧
      (saveBatch true s2 c6m2.channel_id).table.filter (fun r => r.id == c6m2.id) = [c6m2] :=
  c6_idempotent_ingest emptyState c6m1 c6m2 (by decide) (by decide) (by decide)

/-! ### C7 — edit monotonicity -/

/-- Folding a sequence of edit events for one stored id grows the found row's
edit_history by exactly the number of events whose content changed. -/
theorem editFold_history_length (es : List EditEvent) (t : List MessageRow)
    (mid : String) (r : MessageRow) (hfind : findRow t mid = some r)
    (hes : ∀ e ∈ es, e.id = mid ∧ e.author_bot = false) :
    ∃ r', findRow (es.foldl onMessageEditT t) mid = some r' ∧
      r'.edit_history.length = r.edit_history.length +
        (es.filter (fun e => e.old_content != e.new_content)).length := by
  induction es generalizing t r with
  | nil => exact ⟨r, hfind, by simp⟩
  | cons e rest ih =>
      obtain ⟨hidE, hbot⟩ := hes e (List.mem_cons_self e rest)
      have hrest : ∀ x ∈ rest, x.id = mid ∧ x.author_bot = false :=
        fun x hx => hes x (List.mem_cons_of_mem e hx)
      rw [List.foldl_cons]
      cases hc : (e.old_content == e.new_content) with
      | true =>
          have hstep : onMessageEditT t e = t := by
            simp [onMessageEditT, hbot, hc]
          rw [hstep]
          obtain ⟨r', h1, h2⟩ := ih t r hfind hrest
          refine ⟨r', h1, ?_⟩
          rw [h2]
          have : (e :: rest).filter (fun e => e.old_content != e.new_content)
              = rest.filter (fun e => e.old_content != e.new_content) := by
            simp [List.filter, bne, hc]
          rw [this]
      | false =>
          have hstep : onMessageEditT t e
              = recordEdit t mid e.old_content e.new_content e.time := by
            simp [onMessageEditT, hbot, hc, hidE]
          rw [hstep]
          have hfind1 := recordEdit_found t mid e.old_content e.new_content e.time r hfind
          obtain ⟨r', h1, h2⟩ := ih _ _ hfind1 hrest
          refine ⟨r', h1, ?_⟩
          rw [h2]
          have : (e :: rest).filter (fun e => e.old_content != e.new_content)
              = e :: rest.filter (fun e => e.old_content != e.new_content) := by
            simp [List.filter, bne, hc]
          rw [this]
          simp
          omega

/-- C7: for a sequence of edit events on one stored id (non-bot authors), the
length of the stored edit_history after processing equals the number of
events whose old content differs from the new content, and an event whose
content is unchanged leaves the table entirely unmodified. -/
theorem c7_edit_monotonicity (t : List MessageRow) (mid : String)
    (es : List EditEvent) (r : MessageRow)
    (hfind : findRow t mid = some r) (hhist : r.edit_history = [])
    (hes : ∀ e ∈ es, e.id = mid ∧ e.author_bot = false) :
    (∃ r', findRow (es.foldl onMessageEditT t) mid = some r' ∧
        r'.edit_history.length =
          (es.filter (fun e => e.old_content != e.new_content)).length) ∧
    (∀ e : EditEvent, e.old_content = e.new_content → onMessageEditT t e = t) := by
  constructor
  · obtain ⟨r', h1, h2⟩ := editFold_history_length es t mid r hfind hes
    exact ⟨r', h1, by rw [h2, hhist]; simp⟩
  · intro e he
    simp [onMessageEditT, he]

/-- C7 witness: the statement at a one-row table and a concrete three-event
sequence with two content-changing edits and one unchanged edit. -/
theorem c7_edit_monotonicity_witness :
    (∃ r', findRow
        (List.foldl onMessageEditT [mkRow 0]
          [{ author_bot := false, id := "1", old_content := "hello",
             new_content := "hey", time := 3 },
           { author_bot := false, id := "1", old_content := "hey",
             new_content := "hey", time := 4 },
           { author_bot := false, id := "1", old_content := "hey",
             new_content := "yo", time := 5 }]) "1" = some r' ∧
      r'.edit_history.length =
        (List.filter (fun e => e.old_content != e.new_content)
          [{ author_bot := false, id := "1", old_content := "hello",
             new_content := "hey", time := 3 },
           { author_bot := false, id := "1", old_content := "hey",
             new_content := "hey", time := 4 },
           ({ author_bot := false, id := "1", old_content := "hey",
              new_content := "yo", time := 5 } : EditEvent)]).length) ∧
    (∀ e : EditEvent, e.old_content = e.new_content →
      onMessageEditT [mkRow 0] e = [mkRow 0]) :=
  c7_edit_monotonicity [mkRow 0] "1" _ (mkRow 0) (by decide) (by decide) (by decide)

/-! ### C8 — get_recent ordering and deletion filtering -/

set_option maxRecDepth 8000 in
/-- C8: get_recent returns rows of the requested partition sorted by
created_at descending, rows with is_deleted are excluded unless requested,
and in the concrete 60-create scenario for chan-1 the first page of 10
returns ids 60 down to 51 in that order. -/
theorem c8_get_recent (t : List MessageRow) (ch : String) (lim off : Nat)
    (inc : Bool) :
    List.Sorted tsDesc (getMessages t ch lim off inc) ∧
    (∀ r ∈ getMessages t ch lim off inc,
        r.channel_id = ch ∧ (inc = false → r.is_deleted = false)) ∧
    (getMessages table60 "chan-1" 10 0 false).map (fun r => r.id) =
      ["60", "59", "58", "57", "56", "55", "54", "53", "52", "51"] := by
  refine ⟨?_, ?_, by decide⟩
  · have hs : List.Sorted tsDesc (List.insertionSort tsDesc
        (t.filter (fun r => r.channel_id == ch && (inc || !r.is_deleted)))) :=
      List.sorted_insertionSort tsDesc _
    exact List.Pairwise.sublist
      ((List.take_sublist _ _).trans (List.drop_sublist _ _)) hs
  · intro r hr
    have h1 : r ∈ List.insertionSort tsDesc
        (t.filter (fun r => r.channel_id == ch && (inc || !r.is_deleted))) :=
      ((List.take_sublist _ _).trans (List.drop_sublist _ _)).mem hr
    have h2 : r ∈ t.filter (fun r => r.channel_id == ch && (inc || !r.is_deleted)) :=
      (List.perm_insertionSort tsDesc _).mem_iff.mp h1
    have h3 := (List.mem_filter.mp h2).2
    simp only [Bool.and_eq_true, beq_iff_eq, Bool.or_eq_true,
      Bool.not_eq_true'] at h3
    refine ⟨h3.1, fun hincf => ?_⟩
    exact h3.2.resolve_left (fun hit => by rw [hincf] at hit; exact Bool.false_ne_true hit)

/-- C8 witness: the general conjuncts of the statement instantiated at the
concrete 60-row table and first page of 10. -/
theorem c8_get_recent_witness :
    List.Sorted tsDesc (getMessages table60 "chan-1" 10 0 false) ∧
    ∀ r ∈ getMessages table60 "chan-1" 10 0 false,
      r.channel_id = "chan-1" ∧ (false = false → r.is_deleted = false) :=
  ⟨(c8_get_recent table60 "chan-1" 10 0 false).1,
   (c8_get_recent table60 "chan-1" 10 0 false).2.1⟩

/-! ### C9 — last_updated never before created_at -/

/-- Bulk upsert preserves the stamp-order invariant when every inserted row
satisfies it. -/
theorem storeInv_upsertMany (t : List MessageRow) (ms : List MessageRow)
    (hInv : storeInv t) (hms : ∀ m ∈ ms, m.timestamp ≤ m.last_updated) :
    storeInv (upsertMany t ms) := by
  induction ms generalizing t with
  | nil => exact hInv
  | cons m rest ih =>
      have h1 : storeInv (insertOrReplace t m) := by
        intro r hr
        unfold insertOrReplace at hr
        rcases List.mem_append.mp hr with h | h
        · exact hInv r (List.mem_filter.mp h).1
        · have hrm : r = m := by simpa using h
          subst hrm
          exact hms r (List.mem_cons_self r rest)
      exact ih (insertOrReplace t m) h1 (fun x hx => hms x (List.mem_cons_of_mem m hx))

/-- C9: every write the source performs on the messages table preserves the
invariant that a row's last_updated is not before its created_at, provided
the wall clock it stamps is not before the stored creation times; and a
freshly formatted row satisfies the invariant whenever its creation time is
not after the formatting time. -/
theorem c9_last_updated_invariant (t : List MessageRow) (op : StoreOp)
    (hInv : storeInv t) (hClock : opClockOk t op) :
    storeInv (applyStoreOp t op) ∧
    ∀ (m : RawMessage) (now : Nat), m.created_at ≤ now →
      storeInv [formatMessage m now] := by
  constructor
  · cases op with
    | flush ms =>
        simp only [opClockOk] at hClock
        exact storeInv_upsertMany t ms hInv hClock
    | edit mid oldC newC now =>
        simp only [opClockOk] at hClock
        show storeInv (recordEdit t mid oldC newC now)
        unfold recordEdit
        cases hf : findRow t mid with
        | none => exact hInv
        | some r0 =>
            intro r hr
            obtain ⟨x, hx, hfx⟩ := List.mem_map.mp hr
            by_cases hxid : (x.id == mid) = true
            · rw [if_pos hxid] at hfx
              subst hfx
              exact hClock x hx
            · rw [if_neg hxid] at hfx
              subst hfx
              exact hInv x hx
    | markDeleted mid now =>
        simp only [opClockOk] at hClock
        show storeInv (updateMessage t mid
          { content := none, is_deleted := some true, is_edited := none } now)
        unfold updateMessage
        cases hf : findRow t mid with
        | none => exact hInv
        | some r0 =>
            intro r hr
            obtain ⟨x, hx, hfx⟩ := List.mem_map.mp hr
            by_cases hxid : (x.id == mid) = true
            · rw [if_pos hxid] at hfx
              subst hfx
              exact hClock x hx
            · rw [if_neg hxid] at hfx
              subst hfx
              exact hInv x hx
  · intro m now h r hr
    obtain rfl := List.mem_singleton.mp hr
    exact h

/-- C9 witness: the statement at the empty table with a one-row flush. -/
theorem c9_last_updated_invariant_witness :
    storeInv (applyStoreOp [] (StoreOp.flush [mkRow 0])) ∧
    (∀ (m : RawMessage) (now : Nat), m.created_at ≤ now →
      storeInv [formatMessage m now]) :=
  c9_last_updated_invariant [] (StoreOp.flush [mkRow 0])
    (fun r hr => absurd hr (List.not_mem_nil r))
    (fun m hm => by obtain rfl := List.mem_singleton.mp hm; decide)

/-! ### C10 — bot events change no state -/

/-- C10: a create, edit or delete event authored by a bot account leaves the
handler state exactly as it was: nothing is enqueued and the messages table
is untouched. -/
theorem c10_bot_events_no_state_change (storeOk : Bool) (s : HState)
    (m : RawMessage) (now : Nat) (e : EditEvent) (d : DeleteEvent)
    (hm : m.author_bot = true) (he : e.author_bot = true)
    (hd : d.author_bot = true) :
    onMessage storeOk s m now = some s ∧
    onMessageEdit s e = s ∧
    onMessageDelete s d = s := by
  refine ⟨?_, ?_, ?_⟩
  · simp [onMessage, hm]
  · simp [onMessageEdit, onMessageEditT, he]
  · simp [onMessageDelete, onMessageDeleteT, hd]

/-- C10 witness: the statement at the empty state and concrete bot events. -/
theorem c10_bot_events_no_state_change_witness :
    onMessage true emptyState botRaw 0 = some emptyState ∧
    onMessageEdit emptyState botEdit = emptyState ∧
    onMessageDelete emptyState botDel = emptyState :=
  c10_bot_events_no_state_change true emptyState botRaw 0 botEdit botDel
    rfl rfl rfl

end Omnius
